import Mathlib

/-!
Shallow embedding of `auto_seeder.py` from the `ollama-bt-lancache` repository.

The supervisor state (`AutoSeeder.__init__`) is modelled by `AutoSeederState`:
`running_seeders` keeps the keys of the Python dict (insertion order), the
`subprocess.Popen` values being observed only through the oracles of `Env`;
`monitored_torrents` models the Python set as a duplicate-free list; `running`
is the shutdown flag.  Two ghost histories, `launches` (every `subprocess.Popen`
invocation in `start_seeder`) and `termRequests` (every `process.terminate()`
invocation in `stop_seeder`), record the externally visible actions so that
"exactly one launch" style properties can be stated.  Configuration fields
(`models_dir`, `tracker_url`, `check_interval`) only feed log output and the
sleep duration, so they are omitted; the watched directory contents are the
`Dir` parameter.

`Env` packages the outcomes of the operating-system calls during one step:
whether `subprocess.Popen` raises, whether `process.terminate()` raises,
whether `process.poll()` returns non-`None`, and the result of the
`pgrep -f` process-table query (keyed by the descriptor's basename, which is
what the Python code interpolates into the pattern).
-/

/-- Result of the `subprocess.run(['pgrep', '-f', ...])` call in
`check_seeder_status`: either a completed run with a return code and the
stripped stdout, or an exception (`except Exception: pass`). -/
inductive PgrepResult where
  | ok (returncode : Int) (stdoutTrimmed : String)
  | exn
deriving DecidableEq

/-- Oracles for the operating-system interactions of the supervisor. -/
structure Env where
  spawnOk : String → Bool
  termOk : String → Bool
  pollExited : String → Bool
  pgrep : String → PgrepResult

/-- The mutable state of the `AutoSeeder` object, plus the two ghost
histories `launches` and `termRequests`. -/
structure AutoSeederState where
  running_seeders : List String
  monitored_torrents : List String
  running : Bool
  launches : List String
  termRequests : List String
deriving DecidableEq

/-- The watched models directory: its path, whether it exists, and the entry
names it currently contains. -/
structure Dir where
  path : String
  dirExists : Bool
  files : List String
deriving DecidableEq

/-- The state right after `AutoSeeder.__init__`: empty dict, empty set,
`running = True`, empty histories. -/
def initState : AutoSeederState :=
  { running_seeders := [], monitored_torrents := [], running := true,
    launches := [], termRequests := [] }

/-- Split a character list at every occurrence of `sep`
(the behaviour of Python `str.split(sep)` for a one-character separator). -/
def splitOnChar (sep : Char) : List Char → List (List Char)
  | [] => [[]]
  | c :: rest =>
    let r := splitOnChar sep rest
    if c = sep then [] :: r
    else
      match r with
      | [] => [[c]]
      | h :: t => (c :: h) :: t

/-- `os.path.basename`: the substring after the last `/` (pure string
operation, no normalisation). -/
def osBasename (p : String) : String :=
  String.mk ((splitOnChar '/' p.data).getLastD [])

/-- `pathlib.PurePath(p).name`: the last path component after dropping empty
and `.` components produced by slashes. -/
def pathName (p : String) : List Char :=
  (((splitOnChar '/' p.data).filter (fun c => !(c == []) && !(c == ['.']))).getLastD [])

/-- `pathlib` stem of a file name: the name up to its last dot, provided that
dot is neither the first nor the last character (`0 < i < len(name) - 1`). -/
def stemChars (name : List Char) : List Char :=
  match name.reverse.findIdx? (fun c => c == '.') with
  | none => name
  | some j =>
    let i := name.length - 1 - j
    if 0 < i ∧ i < name.length - 1 then name.take i else name

/-- `Path(torrent_file).stem`. -/
def pathStem (p : String) : String :=
  String.mk (stemChars (pathName p))

/-- Python `str.replace(a, b)` for one-character `a` and `b`: a per-character
substitution. -/
def replaceChar (a b : Char) (s : String) : String :=
  String.mk (s.data.map (fun c => if c = a then b else c))

/-- `AutoSeeder.get_model_name_from_torrent` (lines 58-63): take the stem of
the file name and convert underscores back to colons. -/
def get_model_name_from_torrent (torrent_file : String) : String :=
  replaceChar '_' ':' (pathStem torrent_file)

/-- Does an entry name match the `*.torrent` glob pattern, i.e. end with the
fixed suffix `.torrent`? -/
def endsWithTorrent (name : String) : Bool :=
  (".torrent".data).isSuffixOf name.data

/-- `AutoSeeder.find_torrent_files` (lines 45-56): empty when the directory
does not exist, otherwise the full paths of the entries matching
`*.torrent`. -/
def find_torrent_files (d : Dir) : List String :=
  if d.dirExists then
    (d.files.filter (fun name => endsWithTorrent name)).map
      (fun name => d.path ++ "/" ++ name)
  else
    []

/-- `AutoSeeder.start_seeder` (lines 65-101): refuse if a seeder is already
tracked for this exact path; otherwise invoke `subprocess.Popen` (recorded in
`launches`); on success record the handle in `running_seeders` and return
`True`, on an exception return `False` leaving `running_seeders` unchanged. -/
def start_seeder (env : Env) (s : AutoSeederState) (torrent_file : String) :
    Bool × AutoSeederState :=
  if torrent_file ∈ s.running_seeders then
    (false, s)
  else
    let s1 := { s with launches := s.launches ++ [torrent_file] }
    if env.spawnOk torrent_file then
      (true, { s1 with running_seeders := s1.running_seeders ++ [torrent_file] })
    else
      (false, s1)

/-- `AutoSeeder.stop_seeder` (lines 103-113): if the path is tracked, call
`process.terminate()` (recorded in `termRequests`); when the call returns
normally the entry is deleted, when it raises the exception is caught and the
`del` is skipped.  Untracked paths are a no-op. -/
def stop_seeder (env : Env) (s : AutoSeederState) (torrent_file : String) :
    AutoSeederState :=
  if torrent_file ∈ s.running_seeders then
    let s1 := { s with termRequests := s.termRequests ++ [torrent_file] }
    if env.termOk torrent_file then
      { s1 with running_seeders := s1.running_seeders.erase torrent_file }
    else
      s1
  else
    s

/-- `AutoSeeder.stop_all_seeders` (lines 115-119): stop every seeder in a
snapshot of the current keys. -/
def stop_all_seeders (env : Env) (s : AutoSeederState) : AutoSeederState :=
  s.running_seeders.foldl (fun st t => stop_seeder env st t) s

/-- The `result.returncode == 0 and result.stdout.strip()` test of
`check_seeder_status`; an exception from the query counts as not found. -/
def pgrepFindsSeeder : PgrepResult → Bool
  | PgrepResult.ok rc out => rc == 0 && !(out == "")
  | PgrepResult.exn => false

/-- One entry of `check_seeder_status` is marked dead when its `poll()` shows
the handle exited and the fallback `pgrep` query does not find a matching
`seeder.py` process. -/
def seeder_dead (env : Env) (torrent_file : String) : Bool :=
  env.pollExited torrent_file &&
    !(pgrepFindsSeeder (env.pgrep (osBasename torrent_file)))

/-- `AutoSeeder.check_seeder_status` (lines 121-149): collect the dead
entries, then delete each of them from `running_seeders`. -/
def check_seeder_status (env : Env) (s : AutoSeederState) : AutoSeederState :=
  let dead_seeders := s.running_seeders.filter (fun t => seeder_dead env t)
  { s with running_seeders :=
      dead_seeders.foldl (fun rs t => rs.erase t) s.running_seeders }

/-- One iteration of the additions loop of `monitor` (lines 162-165): paths
not yet in `monitored_torrents` get a `start_seeder` call and are added to
`monitored_torrents` regardless of the launch outcome. -/
def additionStep (env : Env) (st : AutoSeederState) (t : String) :
    AutoSeederState :=
  if t ∈ st.monitored_torrents then st
  else
    let st' := (start_seeder env st t).2
    { st' with monitored_torrents := st'.monitored_torrents ++ [t] }

/-- The additions loop of `monitor` over the scanned paths. -/
def cycleAdditions (env : Env) (current : List String) (s : AutoSeederState) :
    AutoSeederState :=
  current.foldl (additionStep env) s

/-- `self.monitored_torrents - current_torrents` (line 168). -/
def removedOf (current : List String) (monitored : List String) : List String :=
  monitored.filter (fun t => decide (t ∉ current))

/-- One iteration of the removals loop of `monitor` (lines 169-173):
`stop_seeder` then removal from `monitored_torrents`. -/
def removalStep (env : Env) (st : AutoSeederState) (t : String) :
    AutoSeederState :=
  let st' := stop_seeder env st t
  { st' with monitored_torrents := st'.monitored_torrents.erase t }

/-- The removals loop of `monitor`. -/
def cycleRemovals (env : Env) (current : List String) (s : AutoSeederState) :
    AutoSeederState :=
  (removedOf current s.monitored_torrents).foldl (removalStep env) s

/-- One iteration of the `monitor` loop body (lines 156-186): scan, start
seeders for unmonitored paths, stop seeders for removed paths, then check
seeder status. -/
def monitor_cycle (env : Env) (d : Dir) (s : AutoSeederState) :
    AutoSeederState :=
  let current := find_torrent_files d
  check_seeder_status env (cycleRemovals env current (cycleAdditions env current s))

/-- `set.add`: append only when absent. -/
def setAdd (l : List String) (t : String) : List String :=
  if t ∈ l then l else l ++ [t]

/-- One iteration of `start_all_existing` (lines 212-215): `start_seeder`
then `monitored_torrents.add`. -/
def startAllStep (env : Env) (st : AutoSeederState) (t : String) :
    AutoSeederState :=
  let st' := (start_seeder env st t).2
  { st' with monitored_torrents := setAdd st'.monitored_torrents t }

/-- `AutoSeeder.start_all_existing` (lines 197-215): scan once, return early
when nothing was found, otherwise launch every scanned descriptor. -/
def start_all_existing (env : Env) (d : Dir) (s : AutoSeederState) :
    AutoSeederState :=
  let torrent_files := find_torrent_files d
  if torrent_files.isEmpty then s
  else torrent_files.foldl (startAllStep env) s

/-- `AutoSeeder._signal_handler` (lines 38-43): set `running` to `False`,
stop all seeders, `sys.exit(0)`.  The second component is the exit code. -/
def signal_handler (env : Env) (s : AutoSeederState) : AutoSeederState × Nat :=
  let s1 := { s with running := false }
  let s2 := stop_all_seeders env s1
  (s2, 0)

/-- The operations a run of the supervisor can perform on its state. -/
inductive Op where
  | start (env : Env) (t : String)
  | stop (env : Env) (t : String)
  | probe (env : Env)
  | cycle (env : Env) (d : Dir)
  | startAll (env : Env) (d : Dir)
  | stopAll (env : Env)
  | signal (env : Env)

/-- Apply one operation to the supervisor state. -/
def applyOp (s : AutoSeederState) : Op → AutoSeederState
  | Op.start env t => (start_seeder env s t).2
  | Op.stop env t => stop_seeder env s t
  | Op.probe env => check_seeder_status env s
  | Op.cycle env d => monitor_cycle env d s
  | Op.startAll env d => start_all_existing env d s
  | Op.stopAll env => stop_all_seeders env s
  | Op.signal env => (signal_handler env s).1

/-! ### Basic facts about the individual operations -/

theorem start_seeder_already (env : Env) (s : AutoSeederState) (t : String)
    (h : t ∈ s.running_seeders) : start_seeder env s t = (false, s) := by
  simp [start_seeder, h]

theorem start_seeder_monitored (env : Env) (s : AutoSeederState) (t : String) :
    ((start_seeder env s t).2).monitored_torrents = s.monitored_torrents := by
  simp only [start_seeder]
  split_ifs <;> rfl

theorem start_seeder_flag (env : Env) (s : AutoSeederState) (t : String) :
    ((start_seeder env s t).2).running = s.running := by
  simp only [start_seeder]
  split_ifs <;> rfl

theorem start_seeder_termRequests (env : Env) (s : AutoSeederState) (t : String) :
    ((start_seeder env s t).2).termRequests = s.termRequests := by
  simp only [start_seeder]
  split_ifs <;> rfl

theorem start_seeder_launches_new (env : Env) (s : AutoSeederState) (t : String)
    (h : t ∉ s.running_seeders) :
    ((start_seeder env s t).2).launches = s.launches ++ [t] := by
  simp only [start_seeder, if_neg h]
  split_ifs <;> rfl

theorem start_seeder_launches_count_ne (env : Env) (s : AutoSeederState)
    (t x : String) (h : x ≠ t) :
    ((start_seeder env s t).2).launches.count x = s.launches.count x := by
  simp only [start_seeder]
  split_ifs <;> simp [List.count_append, List.count_singleton', h]

theorem start_seeder_run_mem (env : Env) (s : AutoSeederState) (t x : String)
    (h : x ∈ s.running_seeders) :
    x ∈ ((start_seeder env s t).2).running_seeders := by
  simp only [start_seeder]
  split_ifs <;> simp [h]

theorem start_seeder_run_notmem (env : Env) (s : AutoSeederState) (t x : String)
    (h : x ∉ s.running_seeders) (hx : x ≠ t) :
    x ∉ ((start_seeder env s t).2).running_seeders := by
  simp only [start_seeder]
  split_ifs <;> simp [h, hx]

theorem start_seeder_run_nodup (env : Env) (s : AutoSeederState) (t : String)
    (h : s.running_seeders.Nodup) :
    ((start_seeder env s t).2).running_seeders.Nodup := by
  simp only [start_seeder]
  split_ifs with h1 h2
  · exact h
  · exact h.append (List.nodup_singleton t)
      (fun a ha hb => h1 ((List.mem_singleton.mp hb) ▸ ha))
  · exact h

theorem start_seeder_run_new_ok (env : Env) (s : AutoSeederState) (t : String)
    (h : t ∉ s.running_seeders) (hs : env.spawnOk t = true) :
    ((start_seeder env s t).2).running_seeders = s.running_seeders ++ [t] := by
  simp [start_seeder, h, hs]

theorem start_seeder_run_new_fail (env : Env) (s : AutoSeederState) (t : String)
    (h : t ∉ s.running_seeders) (hs : env.spawnOk t = false) :
    ((start_seeder env s t).2).running_seeders = s.running_seeders := by
  simp [start_seeder, h, hs]

theorem stop_seeder_notmem (env : Env) (s : AutoSeederState) (t : String)
    (h : t ∉ s.running_seeders) : stop_seeder env s t = s := by
  simp [stop_seeder, h]

theorem stop_seeder_monitored (env : Env) (s : AutoSeederState) (t : String) :
    (stop_seeder env s t).monitored_torrents = s.monitored_torrents := by
  simp only [stop_seeder]
  split_ifs <;> rfl

theorem stop_seeder_launches (env : Env) (s : AutoSeederState) (t : String) :
    (stop_seeder env s t).launches = s.launches := by
  simp only [stop_seeder]
  split_ifs <;> rfl

theorem stop_seeder_flag (env : Env) (s : AutoSeederState) (t : String) :
    (stop_seeder env s t).running = s.running := by
  simp only [stop_seeder]
  split_ifs <;> rfl

theorem stop_seeder_tr_mono (env : Env) (s : AutoSeederState) (t x : String)
    (h : x ∈ s.termRequests) : x ∈ (stop_seeder env s t).termRequests := by
  simp only [stop_seeder]
  split_ifs <;> simp [h]

theorem stop_seeder_tr_self (env : Env) (s : AutoSeederState) (t : String)
    (h : t ∈ s.running_seeders) : t ∈ (stop_seeder env s t).termRequests := by
  simp only [stop_seeder, if_pos h]
  split_ifs <;> simp

theorem stop_seeder_run_sub (env : Env) (s : AutoSeederState) (t x : String)
    (h : x ∈ (stop_seeder env s t).running_seeders) : x ∈ s.running_seeders := by
  simp only [stop_seeder] at h
  split_ifs at h
  · exact List.mem_of_mem_erase h
  · exact h
  · exact h

theorem stop_seeder_run_ne (env : Env) (s : AutoSeederState) (t x : String)
    (h : x ∈ s.running_seeders) (hx : x ≠ t) :
    x ∈ (stop_seeder env s t).running_seeders := by
  simp only [stop_seeder]
  split_ifs
  · exact (List.mem_erase_of_ne hx).mpr h
  · exact h
  · exact h

theorem stop_seeder_run_erased (env : Env) (s : AutoSeederState) (t : String)
    (h : t ∈ s.running_seeders) (hok : env.termOk t = true)
    (hnd : s.running_seeders.Nodup) :
    t ∉ (stop_seeder env s t).running_seeders := by
  simp only [stop_seeder, if_pos h, hok, if_pos]
  intro hmem
  exact ((hnd.mem_erase_iff.mp hmem).1) rfl

theorem stop_seeder_run_nodup (env : Env) (s : AutoSeederState) (t : String)
    (h : s.running_seeders.Nodup) :
    (stop_seeder env s t).running_seeders.Nodup := by
  simp only [stop_seeder]
  split_ifs
  · exact h.erase t
  · exact h
  · exact h

theorem check_monitored (env : Env) (s : AutoSeederState) :
    (check_seeder_status env s).monitored_torrents = s.monitored_torrents := rfl

theorem check_launches (env : Env) (s : AutoSeederState) :
    (check_seeder_status env s).launches = s.launches := rfl

theorem check_termRequests (env : Env) (s : AutoSeederState) :
    (check_seeder_status env s).termRequests = s.termRequests := rfl

theorem check_flag (env : Env) (s : AutoSeederState) :
    (check_seeder_status env s).running = s.running := rfl

theorem foldl_erase_subset (ds : List String) (l : List String) (x : String)
    (h : x ∈ ds.foldl (fun rs t => rs.erase t) l) : x ∈ l := by
  induction ds generalizing l with
  | nil => exact h
  | cons d ds ih => exact List.mem_of_mem_erase (ih (l.erase d) h)

theorem foldl_erase_nodup (ds : List String) (l : List String)
    (h : l.Nodup) : (ds.foldl (fun rs t => rs.erase t) l).Nodup := by
  induction ds generalizing l with
  | nil => exact h
  | cons d ds ih => exact ih (l.erase d) (h.erase d)

theorem foldl_erase_mem (ds : List String) (l : List String) (x : String)
    (h : l.Nodup) :
    x ∈ ds.foldl (fun rs t => rs.erase t) l ↔ x ∈ l ∧ x ∉ ds := by
  induction ds generalizing l with
  | nil => simp
  | cons d ds ih =>
    simp only [List.foldl_cons, ih (l.erase d) (h.erase d),
      h.mem_erase_iff, List.mem_cons]
    constructor
    · rintro ⟨⟨hne, hl⟩, hds⟩
      exact ⟨hl, fun hc => hc.elim hne hds⟩
    · rintro ⟨hl, hc⟩
      exact ⟨⟨fun e => hc (Or.inl e), hl⟩, fun e => hc (Or.inr e)⟩

theorem check_run_sub (env : Env) (s : AutoSeederState) (x : String)
    (h : x ∈ (check_seeder_status env s).running_seeders) :
    x ∈ s.running_seeders :=
  foldl_erase_subset _ _ _ h

theorem check_run_nodup (env : Env) (s : AutoSeederState)
    (h : s.running_seeders.Nodup) :
    (check_seeder_status env s).running_seeders.Nodup :=
  foldl_erase_nodup _ _ h

theorem check_run_mem (env : Env) (s : AutoSeederState) (x : String)
    (h : s.running_seeders.Nodup) :
    x ∈ (check_seeder_status env s).running_seeders ↔
      x ∈ s.running_seeders ∧ seeder_dead env x = false := by
  show x ∈ (s.running_seeders.filter (fun t => seeder_dead env t)).foldl
      (fun rs t => rs.erase t) s.running_seeders ↔ _
  rw [foldl_erase_mem _ _ _ h]
  simp only [List.mem_filter]
  constructor
  · rintro ⟨hl, hf⟩
    refine ⟨hl, ?_⟩
    cases hd : seeder_dead env x
    · rfl
    · exact absurd ⟨hl, hd⟩ hf
  · rintro ⟨hl, hd⟩
    exact ⟨hl, fun hc => by rw [hc.2] at hd; cases hd⟩

/-! ### Facts about the additions loop of the monitor -/

theorem additionStep_skip (env : Env) (st : AutoSeederState) (t : String)
    (h : t ∈ st.monitored_torrents) : additionStep env st t = st := by
  simp [additionStep, h]

theorem additionStep_termRequests (env : Env) (st : AutoSeederState) (u : String) :
    (additionStep env st u).termRequests = st.termRequests := by
  simp only [additionStep]
  split_ifs
  · rfl
  · simp [start_seeder_termRequests]

theorem additionStep_flag (env : Env) (st : AutoSeederState) (u : String) :
    (additionStep env st u).running = st.running := by
  simp only [additionStep]
  split_ifs
  · rfl
  · simp [start_seeder_flag]

theorem additionStep_mon_mono (env : Env) (st : AutoSeederState) (u x : String)
    (h : x ∈ st.monitored_torrents) : x ∈ (additionStep env st u).monitored_torrents := by
  simp only [additionStep]
  split_ifs
  · exact h
  · simp [start_seeder_monitored, h]

theorem additionStep_run_mono (env : Env) (st : AutoSeederState) (u x : String)
    (h : x ∈ st.running_seeders) : x ∈ (additionStep env st u).running_seeders := by
  simp only [additionStep]
  split_ifs
  · exact h
  · exact start_seeder_run_mem env st u x h

theorem additionStep_mon_ne (env : Env) (st : AutoSeederState) (u x : String)
    (hx : x ≠ u) (h : x ∉ st.monitored_torrents) :
    x ∉ (additionStep env st u).monitored_torrents := by
  simp only [additionStep]
  split_ifs
  · exact h
  · simp [start_seeder_monitored, h, hx]

theorem additionStep_run_ne (env : Env) (st : AutoSeederState) (u x : String)
    (hx : x ≠ u) (h : x ∉ st.running_seeders) :
    x ∉ (additionStep env st u).running_seeders := by
  simp only [additionStep]
  split_ifs
  · exact h
  · exact start_seeder_run_notmem env st u x h hx

theorem additionStep_count_ne (env : Env) (st : AutoSeederState) (u x : String)
    (hx : x ≠ u) :
    (additionStep env st u).launches.count x = st.launches.count x := by
  simp only [additionStep]
  split_ifs
  · rfl
  · simp [start_seeder_launches_count_ne env st u x hx]

theorem additionStep_run_nodup (env : Env) (st : AutoSeederState) (u : String)
    (h : st.running_seeders.Nodup) :
    (additionStep env st u).running_seeders.Nodup := by
  simp only [additionStep]
  split_ifs
  · exact h
  · exact start_seeder_run_nodup env st u h

theorem additionStep_mon_nodup (env : Env) (st : AutoSeederState) (u : String)
    (h : st.monitored_torrents.Nodup) :
    (additionStep env st u).monitored_torrents.Nodup := by
  simp only [additionStep]
  split_ifs with h1
  · exact h
  · show ((start_seeder env st u).2.monitored_torrents ++ [u]).Nodup
    rw [start_seeder_monitored]
    exact h.append (List.nodup_singleton u)
      (fun a ha hb => h1 ((List.mem_singleton.mp hb) ▸ ha))

theorem adds_termRequests (env : Env) (cur : List String) (s : AutoSeederState) :
    (cycleAdditions env cur s).termRequests = s.termRequests := by
  induction cur generalizing s with
  | nil => rfl
  | cons u cur ih =>
    show (cycleAdditions env cur (additionStep env s u)).termRequests = _
    rw [ih, additionStep_termRequests]

theorem adds_flag (env : Env) (cur : List String) (s : AutoSeederState) :
    (cycleAdditions env cur s).running = s.running := by
  induction cur generalizing s with
  | nil => rfl
  | cons u cur ih =>
    show (cycleAdditions env cur (additionStep env s u)).running = _
    rw [ih, additionStep_flag]

theorem adds_run_nodup (env : Env) (cur : List String) (s : AutoSeederState)
    (h : s.running_seeders.Nodup) :
    (cycleAdditions env cur s).running_seeders.Nodup := by
  induction cur generalizing s with
  | nil => exact h
  | cons u cur ih =>
    exact ih (additionStep env s u) (additionStep_run_nodup env s u h)

theorem adds_mon_nodup (env : Env) (cur : List String) (s : AutoSeederState)
    (h : s.monitored_torrents.Nodup) :
    (cycleAdditions env cur s).monitored_torrents.Nodup := by
  induction cur generalizing s with
  | nil => exact h
  | cons u cur ih =>
    exact ih (additionStep env s u) (additionStep_mon_nodup env s u h)

theorem adds_mon_mono (env : Env) (cur : List String) (s : AutoSeederState)
    (x : String) (h : x ∈ s.monitored_torrents) :
    x ∈ (cycleAdditions env cur s).monitored_torrents := by
  induction cur generalizing s with
  | nil => exact h
  | cons u cur ih =>
    exact ih (additionStep env s u) (additionStep_mon_mono env s u x h)

theorem adds_tracked (env : Env) (cur : List String) (s : AutoSeederState)
    (t : String) (h : t ∈ s.monitored_torrents) :
    t ∈ (cycleAdditions env cur s).monitored_torrents ∧
    (t ∈ s.running_seeders → t ∈ (cycleAdditions env cur s).running_seeders) ∧
    (t ∉ s.running_seeders → t ∉ (cycleAdditions env cur s).running_seeders) ∧
    (cycleAdditions env cur s).launches.count t = s.launches.count t := by
  induction cur generalizing s with
  | nil => exact ⟨h, fun h => h, fun h => h, rfl⟩
  | cons u cur ih =>
    by_cases hu : t = u
    · subst hu
      rw [show (cycleAdditions env (t :: cur) s) =
            cycleAdditions env cur (additionStep env s t) from rfl,
          additionStep_skip env s t h]
      exact ih s h
    · have step := ih (additionStep env s u) (additionStep_mon_mono env s u t h)
      refine ⟨step.1, ?_, ?_, ?_⟩
      · intro hr
        exact step.2.1 (additionStep_run_mono env s u t hr)
      · intro hr
        exact step.2.2.1 (additionStep_run_ne env s u t hu hr)
      · show (cycleAdditions env cur (additionStep env s u)).launches.count t = _
        rw [step.2.2.2, additionStep_count_ne env s u t hu]

theorem adds_all_tracked_id (env : Env) (cur : List String) (s : AutoSeederState)
    (h : ∀ u ∈ cur, u ∈ s.monitored_torrents) :
    cycleAdditions env cur s = s := by
  induction cur generalizing s with
  | nil => rfl
  | cons u cur ih =>
    show cycleAdditions env cur (additionStep env s u) = s
    rw [additionStep_skip env s u (h u (List.mem_cons_self u cur))]
    exact ih s (fun v hv => h v (List.mem_cons_of_mem u hv))

theorem adds_new_failed (env : Env) (cur : List String) (s : AutoSeederState)
    (t : String) (ht : t ∈ cur) (hm : t ∉ s.monitored_torrents)
    (hr : t ∉ s.running_seeders) (hs : env.spawnOk t = false) :
    (cycleAdditions env cur s).launches.count t = s.launches.count t + 1 ∧
    t ∈ (cycleAdditions env cur s).monitored_torrents ∧
    t ∉ (cycleAdditions env cur s).running_seeders := by
  induction cur generalizing s with
  | nil => cases ht
  | cons u cur ih =>
    by_cases hu : t = u
    · subst hu
      have hstep : additionStep env s t =
          { (start_seeder env s t).2 with
            monitored_torrents := (start_seeder env s t).2.monitored_torrents ++ [t] } := by
        simp [additionStep, hm]
      have hmon : t ∈ (additionStep env s t).monitored_torrents := by
        rw [hstep]; simp [start_seeder_monitored]
      have htr := adds_tracked env cur (additionStep env s t) t hmon
      refine ⟨?_, htr.1, ?_⟩
      · show (cycleAdditions env cur (additionStep env s t)).launches.count t = _
        rw [htr.2.2.2, hstep]
        simp [start_seeder_launches_new env s t hr, List.count_append]
      · show t ∉ (cycleAdditions env cur (additionStep env s t)).running_seeders
        refine htr.2.2.1 ?_
        rw [hstep]
        simp [start_seeder_run_new_fail env s t hr hs, hr]
    · have hm' := additionStep_mon_ne env s u t hu hm
      have hr' := additionStep_run_ne env s u t hu hr
      have ht' : t ∈ cur := by
        cases List.mem_cons.mp ht with
        | inl e => exact absurd e hu
        | inr h => exact h
      have step := ih (additionStep env s u) ht' hm' hr'
      refine ⟨?_, step.2.1, step.2.2⟩
      show (cycleAdditions env cur (additionStep env s u)).launches.count t = _
      rw [step.1, additionStep_count_ne env s u t hu]

/-! ### Facts about the removals loop of the monitor -/

theorem mem_removedOf (cur mon : List String) (t : String) :
    t ∈ removedOf cur mon ↔ t ∈ mon ∧ t ∉ cur := by
  simp [removedOf]

theorem removedOf_nodup (cur mon : List String) (h : mon.Nodup) :
    (removedOf cur mon).Nodup :=
  h.filter _

theorem removedOf_nil (cur mon : List String) (h : ∀ u ∈ mon, u ∈ cur) :
    removedOf cur mon = [] := by
  simp only [removedOf, List.filter_eq_nil_iff]
  intro a ha
  simp [h a ha]

theorem removalStep_launches (env : Env) (st : AutoSeederState) (u : String) :
    (removalStep env st u).launches = st.launches := by
  simp [removalStep, stop_seeder_launches]

theorem removalStep_flag (env : Env) (st : AutoSeederState) (u : String) :
    (removalStep env st u).running = st.running := by
  simp [removalStep, stop_seeder_flag]

theorem removalStep_tr_mono (env : Env) (st : AutoSeederState) (u x : String)
    (h : x ∈ st.termRequests) : x ∈ (removalStep env st u).termRequests := by
  show x ∈ (stop_seeder env st u).termRequests
  exact stop_seeder_tr_mono env st u x h

theorem removalStep_run_sub (env : Env) (st : AutoSeederState) (u x : String)
    (h : x ∈ (removalStep env st u).running_seeders) : x ∈ st.running_seeders :=
  stop_seeder_run_sub env st u x h

theorem removalStep_run_ne (env : Env) (st : AutoSeederState) (u x : String)
    (h : x ∈ st.running_seeders) (hx : x ≠ u) :
    x ∈ (removalStep env st u).running_seeders :=
  stop_seeder_run_ne env st u x h hx

theorem removalStep_mon_ne (env : Env) (st : AutoSeederState) (u x : String)
    (h : x ∈ st.monitored_torrents) (hx : x ≠ u) :
    x ∈ (removalStep env st u).monitored_torrents := by
  show x ∈ (stop_seeder env st u).monitored_torrents.erase u
  rw [stop_seeder_monitored]
  exact (List.mem_erase_of_ne hx).mpr h

theorem removalStep_mon_sub (env : Env) (st : AutoSeederState) (u x : String)
    (h : x ∈ (removalStep env st u).monitored_torrents) :
    x ∈ st.monitored_torrents := by
  have h' : x ∈ (stop_seeder env st u).monitored_torrents.erase u := h
  rw [stop_seeder_monitored] at h'
  exact List.mem_of_mem_erase h'

theorem removalStep_run_nodup (env : Env) (st : AutoSeederState) (u : String)
    (h : st.running_seeders.Nodup) :
    (removalStep env st u).running_seeders.Nodup :=
  stop_seeder_run_nodup env st u h

theorem removalStep_mon_nodup (env : Env) (st : AutoSeederState) (u : String)
    (h : st.monitored_torrents.Nodup) :
    (removalStep env st u).monitored_torrents.Nodup := by
  show ((stop_seeder env st u).monitored_torrents.erase u).Nodup
  rw [stop_seeder_monitored]
  exact h.erase u

theorem rm_fold_launches (env : Env) (ds : List String) (s : AutoSeederState) :
    (ds.foldl (removalStep env) s).launches = s.launches := by
  induction ds generalizing s with
  | nil => rfl
  | cons u ds ih => rw [List.foldl_cons, ih, removalStep_launches]

theorem rm_fold_flag (env : Env) (ds : List String) (s : AutoSeederState) :
    (ds.foldl (removalStep env) s).running = s.running := by
  induction ds generalizing s with
  | nil => rfl
  | cons u ds ih => rw [List.foldl_cons, ih, removalStep_flag]

theorem rm_fold_tr_mono (env : Env) (ds : List String) (s : AutoSeederState)
    (x : String) (h : x ∈ s.termRequests) :
    x ∈ (ds.foldl (removalStep env) s).termRequests := by
  induction ds generalizing s with
  | nil => exact h
  | cons u ds ih =>
    exact ih (removalStep env s u) (removalStep_tr_mono env s u x h)

theorem rm_fold_keep_out (env : Env) (ds : List String) (s : AutoSeederState)
    (t : String) (hr : t ∉ s.running_seeders) (hm : t ∉ s.monitored_torrents) :
    t ∉ (ds.foldl (removalStep env) s).running_seeders ∧
    t ∉ (ds.foldl (removalStep env) s).monitored_torrents := by
  induction ds generalizing s with
  | nil => exact ⟨hr, hm⟩
  | cons u ds ih =>
    refine ih (removalStep env s u)
      (fun hc => hr (removalStep_run_sub env s u t hc))
      (fun hc => hm (removalStep_mon_sub env s u t hc))

theorem rm_fold_notin (env : Env) (ds : List String) (s : AutoSeederState)
    (t : String) (hds : t ∉ ds) :
    (t ∈ s.monitored_torrents → t ∈ (ds.foldl (removalStep env) s).monitored_torrents) ∧
    (t ∉ s.running_seeders → t ∉ (ds.foldl (removalStep env) s).running_seeders) := by
  induction ds generalizing s with
  | nil => exact ⟨fun h => h, fun h => h⟩
  | cons u ds ih =>
    have hu : t ≠ u := fun e => hds (e ▸ List.mem_cons_self u ds)
    have hds' : t ∉ ds := fun hc => hds (List.mem_cons_of_mem u hc)
    constructor
    · intro hm
      exact (ih (removalStep env s u) hds').1 (removalStep_mon_ne env s u t hm hu)
    · intro hr
      exact (ih (removalStep env s u) hds').2
        (fun hc => hr (removalStep_run_sub env s u t hc))

theorem rm_fold_hit (env : Env) (ds : List String) (s : AutoSeederState)
    (t : String) (hds : ds.Nodup) (ht : t ∈ ds) (hr : t ∈ s.running_seeders)
    (hrnd : s.running_seeders.Nodup) (hmnd : s.monitored_torrents.Nodup)
    (hok : env.termOk t = true) :
    t ∈ (ds.foldl (removalStep env) s).termRequests ∧
    t ∉ (ds.foldl (removalStep env) s).running_seeders ∧
    t ∉ (ds.foldl (removalStep env) s).monitored_torrents := by
  induction ds generalizing s with
  | nil => cases ht
  | cons u ds ih =>
    by_cases hu : t = u
    · subst hu
      have hds' : t ∉ ds := (List.nodup_cons.mp hds).1
      have s' := removalStep env s t
      have htr : t ∈ (removalStep env s t).termRequests :=
        stop_seeder_tr_self env s t hr
      have hrun : t ∉ (removalStep env s t).running_seeders :=
        stop_seeder_run_erased env s t hr hok hrnd
      have hmon : t ∉ (removalStep env s t).monitored_torrents := by
        show t ∉ (stop_seeder env s t).monitored_torrents.erase t
        rw [stop_seeder_monitored]
        intro hc
        exact (hmnd.mem_erase_iff.mp hc).1 rfl
      rw [List.foldl_cons]
      exact ⟨rm_fold_tr_mono env ds _ t htr,
        (rm_fold_keep_out env ds _ t hrun hmon).1,
        (rm_fold_keep_out env ds _ t hrun hmon).2⟩
    · have hds' : ds.Nodup := (List.nodup_cons.mp hds).2
      have ht' : t ∈ ds := by
        cases List.mem_cons.mp ht with
        | inl e => exact absurd e hu
        | inr h => exact h
      rw [List.foldl_cons]
      exact ih (removalStep env s u) hds' ht'
        (removalStep_run_ne env s u t hr hu)
        (removalStep_run_nodup env s u hrnd)
        (removalStep_mon_nodup env s u hmnd)

theorem rm_fold_run_nodup (env : Env) (ds : List String) (s : AutoSeederState)
    (h : s.running_seeders.Nodup) :
    (ds.foldl (removalStep env) s).running_seeders.Nodup := by
  induction ds generalizing s with
  | nil => exact h
  | cons u ds ih => exact ih (removalStep env s u) (removalStep_run_nodup env s u h)

/-! ### Facts about the startup pass and the shutdown drain -/

theorem startAllStep_run_nodup (env : Env) (st : AutoSeederState) (u : String)
    (h : st.running_seeders.Nodup) :
    (startAllStep env st u).running_seeders.Nodup := by
  show ((start_seeder env st u).2).running_seeders.Nodup
  exact start_seeder_run_nodup env st u h

theorem sa_fold_fresh (env : Env) (cur : List String) (s : AutoSeederState)
    (hnd : cur.Nodup)
    (hfresh : ∀ u ∈ cur, u ∉ s.running_seeders ∧ u ∉ s.monitored_torrents)
    (hspawn : ∀ u, env.spawnOk u = true) :
    (cur.foldl (startAllStep env) s).launches = s.launches ++ cur ∧
    (cur.foldl (startAllStep env) s).running_seeders = s.running_seeders ++ cur ∧
    (cur.foldl (startAllStep env) s).monitored_torrents = s.monitored_torrents ++ cur := by
  induction cur generalizing s with
  | nil => simp
  | cons u cur ih =>
    have hu := hfresh u (List.mem_cons_self u cur)
    have hl : (startAllStep env s u).launches = s.launches ++ [u] := by
      show ((start_seeder env s u).2).launches = _
      exact start_seeder_launches_new env s u hu.1
    have hrun : (startAllStep env s u).running_seeders = s.running_seeders ++ [u] := by
      show ((start_seeder env s u).2).running_seeders = _
      exact start_seeder_run_new_ok env s u hu.1 (hspawn u)
    have hmon : (startAllStep env s u).monitored_torrents = s.monitored_torrents ++ [u] := by
      show setAdd ((start_seeder env s u).2).monitored_torrents u = _
      rw [start_seeder_monitored]
      simp [setAdd, hu.2]
    have hnd' : cur.Nodup := (List.nodup_cons.mp hnd).2
    have hne : u ∉ cur := (List.nodup_cons.mp hnd).1
    have hfresh' : ∀ v ∈ cur, v ∉ (startAllStep env s u).running_seeders ∧
        v ∉ (startAllStep env s u).monitored_torrents := by
      intro v hv
      have hvu : v ≠ u := fun e => hne (e ▸ hv)
      have := hfresh v (List.mem_cons_of_mem u hv)
      rw [hrun, hmon]
      simp [this.1, this.2, hvu]
    have step := ih (startAllStep env s u) hnd' hfresh'
    rw [List.foldl_cons]
    refine ⟨?_, ?_, ?_⟩
    · rw [step.1, hl, List.append_assoc]; rfl
    · rw [step.2.1, hrun, List.append_assoc]; rfl
    · rw [step.2.2, hmon, List.append_assoc]; rfl

theorem sa_fold_run_nodup (env : Env) (cur : List String) (s : AutoSeederState)
    (h : s.running_seeders.Nodup) :
    (cur.foldl (startAllStep env) s).running_seeders.Nodup := by
  induction cur generalizing s with
  | nil => exact h
  | cons u cur ih =>
    exact ih (startAllStep env s u) (startAllStep_run_nodup env s u h)

theorem stopAll_fold_tr_mono (env : Env) (l : List String) (s : AutoSeederState)
    (x : String) (h : x ∈ s.termRequests) :
    x ∈ (l.foldl (fun st t => stop_seeder env st t) s).termRequests := by
  induction l generalizing s with
  | nil => exact h
  | cons u l ih => exact ih (stop_seeder env s u) (stop_seeder_tr_mono env s u x h)

theorem stopAll_fold_requests (env : Env) (l : List String) (s : AutoSeederState)
    (h : ∀ t ∈ l, t ∈ s.running_seeders ∨ t ∈ s.termRequests) :
    ∀ t ∈ l, t ∈ (l.foldl (fun st t => stop_seeder env st t) s).termRequests := by
  induction l generalizing s with
  | nil => intro t ht; cases ht
  | cons u l ih =>
    have hstep : ∀ x, x ∈ s.running_seeders ∨ x ∈ s.termRequests →
        x ∈ (stop_seeder env s u).running_seeders ∨
        x ∈ (stop_seeder env s u).termRequests := by
      intro x hx
      cases hx with
      | inr htr => exact Or.inr (stop_seeder_tr_mono env s u x htr)
      | inl hrun =>
        by_cases hxu : x = u
        · exact Or.inr (hxu ▸ stop_seeder_tr_self env s u (hxu ▸ hrun))
        · exact Or.inl (stop_seeder_run_ne env s u x hrun hxu)
    intro t ht
    rw [List.foldl_cons]
    cases List.mem_cons.mp ht with
    | inl e =>
      subst e
      have : t ∈ (stop_seeder env s t).termRequests := by
        cases h t (List.mem_cons_self t l) with
        | inl hrun => exact stop_seeder_tr_self env s t hrun
        | inr htr => exact stop_seeder_tr_mono env s t t htr
      exact stopAll_fold_tr_mono env l _ t this
    | inr hmem =>
      exact ih (stop_seeder env s u)
        (fun v hv => hstep v (h v (List.mem_cons_of_mem u hv))) t hmem

theorem stopAll_fold_run_nodup (env : Env) (l : List String) (s : AutoSeederState)
    (h : s.running_seeders.Nodup) :
    (l.foldl (fun st t => stop_seeder env st t) s).running_seeders.Nodup := by
  induction l generalizing s with
  | nil => exact h
  | cons u l ih => exact ih (stop_seeder env s u) (stop_seeder_run_nodup env s u h)

theorem stopAll_fold_flag (env : Env) (l : List String) (s : AutoSeederState) :
    (l.foldl (fun st t => stop_seeder env st t) s).running = s.running := by
  induction l generalizing s with
  | nil => rfl
  | cons u l ih => rw [List.foldl_cons, ih, stop_seeder_flag]

/-! ### Composition facts about one monitor cycle -/

theorem monitor_cycle_flag (env : Env) (d : Dir) (s : AutoSeederState) :
    (monitor_cycle env d s).running = s.running := by
  show (check_seeder_status env
      (cycleRemovals env (find_torrent_files d)
        (cycleAdditions env (find_torrent_files d) s))).running = _
  rw [check_flag]
  show ((removedOf (find_torrent_files d) _).foldl (removalStep env) _).running = _
  rw [rm_fold_flag, adds_flag]

theorem monitor_cycle_run_nodup (env : Env) (d : Dir) (s : AutoSeederState)
    (h : s.running_seeders.Nodup) :
    (monitor_cycle env d s).running_seeders.Nodup := by
  exact check_run_nodup env _
    (rm_fold_run_nodup env _ _ (adds_run_nodup env _ s h))

theorem start_all_existing_run_nodup (env : Env) (d : Dir) (s : AutoSeederState)
    (h : s.running_seeders.Nodup) :
    (start_all_existing env d s).running_seeders.Nodup := by
  simp only [start_all_existing]
  split_ifs
  · exact h
  · exact sa_fold_run_nodup env _ s h

theorem applyOp_run_nodup (s : AutoSeederState) (op : Op)
    (h : s.running_seeders.Nodup) : (applyOp s op).running_seeders.Nodup := by
  cases op with
  | start env t => exact start_seeder_run_nodup env s t h
  | stop env t => exact stop_seeder_run_nodup env s t h
  | probe env => exact check_run_nodup env s h
  | cycle env d => exact monitor_cycle_run_nodup env d s h
  | startAll env d => exact start_all_existing_run_nodup env d s h
  | stopAll env => exact stopAll_fold_run_nodup env _ s h
  | signal env =>
    exact stopAll_fold_run_nodup env _ { s with running := false } h

theorem foldl_applyOp_run_nodup (ops : List Op) (s : AutoSeederState)
    (h : s.running_seeders.Nodup) :
    ((ops.foldl applyOp s).running_seeders).Nodup := by
  induction ops generalizing s with
  | nil => exact h
  | cons op ops ih => exact ih (applyOp s op) (applyOp_run_nodup s op h)

/-! ### Round-trip property of the character substitution -/

theorem map_sub_roundtrip (l : List Char) (h : ':' ∉ l) :
    (l.map (fun c => if c = '_' then ':' else c)).map
      (fun c => if c = ':' then '_' else c) = l := by
  induction l with
  | nil => rfl
  | cons c l ih =>
    have hc : c ≠ ':' := fun e => h (e ▸ List.mem_cons_self c l)
    have h' : ':' ∉ l := fun hl => h (List.mem_cons_of_mem c hl)
    simp only [List.map_cons, ih h']
    by_cases hcu : c = '_'
    · subst hcu; simp
    · simp [hcu, hc]

theorem replaceChar_roundtrip (s : String) (h : ':' ∉ s.data) :
    replaceChar ':' '_' (replaceChar '_' ':' s) = s :=
  congrArg String.mk (map_sub_roundtrip s.data h)

/-! ### The claims -/

/-- C2: across every sequence of supervisor operations starting from the
initial state, `running_seeders` never holds two entries for the same
descriptor path (its key list stays duplicate-free), and `start_seeder`
refuses to launch — returning `False` with the state unchanged — whenever a
seeder is already tracked for that exact path. -/
theorem C2_at_most_one_seeder_per_path (ops : List Op) (env : Env)
    (s : AutoSeederState) (t : String) (h : t ∈ s.running_seeders) :
    ((ops.foldl applyOp initState).running_seeders).Nodup ∧
    start_seeder env s t = (false, s) :=
  ⟨foldl_applyOp_run_nodup ops initState List.nodup_nil,
   start_seeder_already env s t h⟩

/-- Witness for C2 at a concrete operation sequence and a concrete
already-tracked path. -/
theorem C2_at_most_one_seeder_per_path_witness :
    ((([Op.cycle ⟨fun _ => true, fun _ => true, fun _ => false, fun _ => PgrepResult.exn⟩
          ⟨"/m", true, ["a.torrent", "b.torrent"]⟩] : List Op).foldl applyOp
        initState).running_seeders).Nodup ∧
    start_seeder ⟨fun _ => true, fun _ => true, fun _ => false, fun _ => PgrepResult.exn⟩
      ⟨["/m/a.torrent"], [], true, [], []⟩ "/m/a.torrent" =
      (false, ⟨["/m/a.torrent"], [], true, [], []⟩) :=
  C2_at_most_one_seeder_per_path
    [Op.cycle ⟨fun _ => true, fun _ => true, fun _ => false, fun _ => PgrepResult.exn⟩
      ⟨"/m", true, ["a.torrent", "b.torrent"]⟩]
    ⟨fun _ => true, fun _ => true, fun _ => false, fun _ => PgrepResult.exn⟩
    ⟨["/m/a.torrent"], [], true, [], []⟩ "/m/a.torrent" (by decide)

/-- C4: for a tracked worker, the liveness check keeps the entry exactly when
the primary handle has not exited or the process-table query finds a running
match, and removes it otherwise; an exception from the process-table query is
treated as "not found", i.e. as Dead, rather than propagated. -/
theorem C4_liveness_probe (env : Env) (s : AutoSeederState) (t : String)
    (hnd : s.running_seeders.Nodup) :
    (t ∈ (check_seeder_status env s).running_seeders ↔
      t ∈ s.running_seeders ∧
        (env.pollExited t = false ∨
          pgrepFindsSeeder (env.pgrep (osBasename t)) = true)) ∧
    pgrepFindsSeeder PgrepResult.exn = false := by
  refine ⟨?_, rfl⟩
  rw [check_run_mem env s t hnd]
  have hiff : seeder_dead env t = false ↔
      (env.pollExited t = false ∨
        pgrepFindsSeeder (env.pgrep (osBasename t)) = true) := by
    simp only [seeder_dead]
    cases env.pollExited t <;>
      cases pgrepFindsSeeder (env.pgrep (osBasename t)) <;> simp
  rw [hiff]

/-- Witness for C4: a worker whose handle exited and whose process-table
query raised is reported Dead and removed. -/
theorem C4_liveness_probe_witness :
    (("/m/a.torrent" ∈ (check_seeder_status
        ⟨fun _ => true, fun _ => true, fun _ => true, fun _ => PgrepResult.exn⟩
        ⟨["/m/a.torrent"], ["/m/a.torrent"], true, [], []⟩).running_seeders) ↔
      "/m/a.torrent" ∈ (["/m/a.torrent"] : List String) ∧
        ((⟨fun _ => true, fun _ => true, fun _ => true, fun _ => PgrepResult.exn⟩ :
            Env).pollExited "/m/a.torrent" = false ∨
          pgrepFindsSeeder ((⟨fun _ => true, fun _ => true, fun _ => true,
            fun _ => PgrepResult.exn⟩ : Env).pgrep
              (osBasename "/m/a.torrent")) = true)) ∧
    pgrepFindsSeeder PgrepResult.exn = false :=
  C4_liveness_probe
    ⟨fun _ => true, fun _ => true, fun _ => true, fun _ => PgrepResult.exn⟩
    ⟨["/m/a.torrent"], ["/m/a.torrent"], true, [], []⟩ "/m/a.torrent" (by decide)

/-- C7: the descriptor scan returns exactly the paths of the entries with the
fixed `.torrent` suffix, and returns the empty collection instead of raising
when the directory does not exist.  The scan is a pure function of the
directory contents: it takes no supervisor state and returns none, so it
cannot modify it. -/
theorem C7_scan_contract (d : Dir) (p : String) :
    (d.dirExists = false → find_torrent_files d = []) ∧
    (p ∈ find_torrent_files d ↔
      d.dirExists = true ∧ ∃ name, name ∈ d.files ∧ endsWithTorrent name = true ∧
        p = d.path ++ "/" ++ name) := by
  constructor
  · intro h
    simp [find_torrent_files, h]
  · cases hd : d.dirExists with
    | false => simp [find_torrent_files, hd]
    | true =>
      simp only [find_torrent_files, hd, if_pos, List.mem_map, List.mem_filter,
        true_and]
      constructor
      · rintro ⟨name, ⟨hmem, hsuf⟩, rfl⟩
        exact ⟨name, hmem, hsuf, rfl⟩
      · rintro ⟨name, hmem, hsuf, rfl⟩
        exact ⟨name, ⟨hmem, hsuf⟩, rfl⟩

/-- Witness for C7: the scan of a directory with one matching and one
non-matching entry, and of a missing directory. -/
theorem C7_scan_contract_witness :
    (((⟨"/m", false, ["a.torrent"]⟩ : Dir).dirExists = false →
      find_torrent_files ⟨"/m", false, ["a.torrent"]⟩ = []) ∧
      ("/m/a.torrent" ∈ find_torrent_files ⟨"/m", false, ["a.torrent"]⟩ ↔
        (⟨"/m", false, ["a.torrent"]⟩ : Dir).dirExists = true ∧
          ∃ name, name ∈ (⟨"/m", false, ["a.torrent"]⟩ : Dir).files ∧
            endsWithTorrent name = true ∧
            "/m/a.torrent" = (⟨"/m", false, ["a.torrent"]⟩ : Dir).path ++ "/" ++ name)) ∧
    "/m/a.torrent" ∈ find_torrent_files ⟨"/m", true, ["a.torrent", "b.txt"]⟩ :=
  ⟨C7_scan_contract ⟨"/m", false, ["a.torrent"]⟩ "/m/a.torrent",
   (C7_scan_contract ⟨"/m", true, ["a.torrent", "b.txt"]⟩ "/m/a.torrent").2.mpr
     ⟨rfl, "a.torrent", by decide, by decide, by decide⟩⟩

/-- C9: on a shutdown signal the handler sets the running flag to false,
requests termination of every worker currently in `running_seeders` — a
termination error for one worker (an arbitrary `termOk` oracle) never
prevents the requests for the remaining workers — and exits with code 0. -/
theorem C9_shutdown_handler (env : Env) (s : AutoSeederState) :
    (signal_handler env s).1.running = false ∧
    (signal_handler env s).2 = 0 ∧
    ∀ t ∈ s.running_seeders, t ∈ (signal_handler env s).1.termRequests := by
  refine ⟨?_, rfl, ?_⟩
  · show (stop_all_seeders env { s with running := false }).running = false
    show (List.foldl (fun st t => stop_seeder env st t) _ _).running = false
    rw [stopAll_fold_flag]
  · intro t ht
    show t ∈ (stop_all_seeders env { s with running := false }).termRequests
    exact stopAll_fold_requests env s.running_seeders { s with running := false }
      (fun v hv => Or.inl hv) t ht

/-- Witness for C9: two workers, the first of which fails to terminate; both
still receive termination requests, the flag drops and the exit code is 0. -/
theorem C9_shutdown_handler_witness :
    (signal_handler ⟨fun _ => true, fun t => t == "/m/b.torrent", fun _ => false,
        fun _ => PgrepResult.exn⟩
      ⟨["/m/a.torrent", "/m/b.torrent"], [], true, [], []⟩).1.running = false ∧
    (signal_handler ⟨fun _ => true, fun t => t == "/m/b.torrent", fun _ => false,
        fun _ => PgrepResult.exn⟩
      ⟨["/m/a.torrent", "/m/b.torrent"], [], true, [], []⟩).2 = 0 ∧
    ∀ t ∈ (["/m/a.torrent", "/m/b.torrent"] : List String),
      t ∈ (signal_handler ⟨fun _ => true, fun t => t == "/m/b.torrent", fun _ => false,
          fun _ => PgrepResult.exn⟩
        ⟨["/m/a.torrent", "/m/b.torrent"], [], true, [], []⟩).1.termRequests :=
  C9_shutdown_handler
    ⟨fun _ => true, fun t => t == "/m/b.torrent", fun _ => false, fun _ => PgrepResult.exn⟩
    ⟨["/m/a.torrent", "/m/b.torrent"], [], true, [], []⟩

/-- C10: stopping a path that has no tracked seeder is a no-op: the whole
state — in particular `running_seeders` and `monitored_torrents` — is
returned unchanged and nothing is raised. -/
theorem C10_stop_seeder_noop (env : Env) (s : AutoSeederState) (t : String)
    (h : t ∉ s.running_seeders) : stop_seeder env s t = s :=
  stop_seeder_notmem env s t h

/-- Witness for C10: stopping an untracked path on a concrete state. -/
theorem C10_stop_seeder_noop_witness :
    stop_seeder ⟨fun _ => true, fun _ => true, fun _ => false, fun _ => PgrepResult.exn⟩
      ⟨["/m/a.torrent"], ["/m/a.torrent", "/m/b.torrent"], true, [], []⟩ "/m/b.torrent" =
      ⟨["/m/a.torrent"], ["/m/a.torrent", "/m/b.torrent"], true, [], []⟩ :=
  C10_stop_seeder_noop
    ⟨fun _ => true, fun _ => true, fun _ => false, fun _ => PgrepResult.exn⟩
    ⟨["/m/a.torrent"], ["/m/a.torrent", "/m/b.torrent"], true, [], []⟩
    "/m/b.torrent" (by decide)

/-- C6: starting from the initial state with N distinct descriptor files
present and spawns succeeding, the startup pass launches each scanned
descriptor exactly once (the launch history equals the scan), tracks each of
them in both `running_seeders` and `monitored_torrents`, and the first
periodic monitoring cycle performs zero additional launches. -/
theorem C6_startup_launch_pass (env : Env) (d : Dir)
    (hnd : (find_torrent_files d).Nodup) (hspawn : ∀ u, env.spawnOk u = true) :
    (start_all_existing env d initState).launches = find_torrent_files d ∧
    (start_all_existing env d initState).running_seeders = find_torrent_files d ∧
    (start_all_existing env d initState).monitored_torrents = find_torrent_files d ∧
    (monitor_cycle env d (start_all_existing env d initState)).launches =
      (start_all_existing env d initState).launches := by
  have hstate : (start_all_existing env d initState).launches = find_torrent_files d ∧
      (start_all_existing env d initState).running_seeders = find_torrent_files d ∧
      (start_all_existing env d initState).monitored_torrents = find_torrent_files d := by
    by_cases he : (find_torrent_files d).isEmpty
    · have hnil : find_torrent_files d = [] := List.isEmpty_iff.mp he
      simp only [start_all_existing, he, if_pos, hnil]
      exact ⟨rfl, rfl, rfl⟩
    · have hfold := sa_fold_fresh env (find_torrent_files d) initState hnd
        (fun u _ => ⟨List.not_mem_nil u, List.not_mem_nil u⟩) hspawn
      simp only [start_all_existing, he, if_neg, Bool.false_eq_true,
        not_false_iff] at hfold ⊢
      simpa using hfold
  refine ⟨hstate.1, hstate.2.1, hstate.2.2, ?_⟩
  have hadds : cycleAdditions env (find_torrent_files d)
      (start_all_existing env d initState) = start_all_existing env d initState :=
    adds_all_tracked_id env _ _ (fun u hu => hstate.2.2 ▸ hu)
  have hrem : removedOf (find_torrent_files d)
      (start_all_existing env d initState).monitored_torrents = [] :=
    removedOf_nil _ _ (fun u hu => hstate.2.2 ▸ hu)
  show (check_seeder_status env (cycleRemovals env (find_torrent_files d)
      (cycleAdditions env (find_torrent_files d)
        (start_all_existing env d initState)))).launches = _
  rw [check_launches, hadds]
  show ((removedOf (find_torrent_files d)
      (start_all_existing env d initState).monitored_torrents).foldl
        (removalStep env) (start_all_existing env d initState)).launches = _
  rw [hrem]
  rfl

/-- Witness for C6 at a directory holding two descriptors. -/
theorem C6_startup_launch_pass_witness :
    (start_all_existing ⟨fun _ => true, fun _ => true, fun _ => false, fun _ => PgrepResult.exn⟩
        ⟨"/m", true, ["a.torrent", "b.torrent"]⟩ initState).launches =
      find_torrent_files ⟨"/m", true, ["a.torrent", "b.torrent"]⟩ ∧
    (start_all_existing ⟨fun _ => true, fun _ => true, fun _ => false, fun _ => PgrepResult.exn⟩
        ⟨"/m", true, ["a.torrent", "b.torrent"]⟩ initState).running_seeders =
      find_torrent_files ⟨"/m", true, ["a.torrent", "b.torrent"]⟩ ∧
    (start_all_existing ⟨fun _ => true, fun _ => true, fun _ => false, fun _ => PgrepResult.exn⟩
        ⟨"/m", true, ["a.torrent", "b.torrent"]⟩ initState).monitored_torrents =
      find_torrent_files ⟨"/m", true, ["a.torrent", "b.torrent"]⟩ ∧
    (monitor_cycle ⟨fun _ => true, fun _ => true, fun _ => false, fun _ => PgrepResult.exn⟩
        ⟨"/m", true, ["a.torrent", "b.torrent"]⟩
        (start_all_existing ⟨fun _ => true, fun _ => true, fun _ => false, fun _ => PgrepResult.exn⟩
          ⟨"/m", true, ["a.torrent", "b.torrent"]⟩ initState)).launches =
      (start_all_existing ⟨fun _ => true, fun _ => true, fun _ => false, fun _ => PgrepResult.exn⟩
        ⟨"/m", true, ["a.torrent", "b.torrent"]⟩ initState).launches :=
  C6_startup_launch_pass
    ⟨fun _ => true, fun _ => true, fun _ => false, fun _ => PgrepResult.exn⟩
    ⟨"/m", true, ["a.torrent", "b.torrent"]⟩ (by decide) (fun u => rfl)

/-- C8 counterexample: for the descriptor `/m/a:b.torrent` the stem is `a:b`;
mapping colons back to underscores after resolving yields `a_b`, which does
not recover the stem — the substitution is not reversible on every path. -/
theorem C8_counterexample :
    replaceChar ':' '_' (get_model_name_from_torrent "/m/a:b.torrent") ≠
      pathStem "/m/a:b.torrent" := by decide

/-- C8 (amended): the unit-identity resolver is a total, deterministic, pure
function of the path — it strips the suffix and maps every underscore of the
stem to a colon — and the substitution is reversible for every path whose
stem contains no colon (stems that already contain a colon, impossible in the
names the tooling itself writes, are not recovered). -/
theorem C8_resolver_deterministic_reversible (p : String)
    (h : ':' ∉ (pathStem p).data) :
    get_model_name_from_torrent p = replaceChar '_' ':' (pathStem p) ∧
    (∀ q, q = p → get_model_name_from_torrent q = get_model_name_from_torrent p) ∧
    replaceChar ':' '_' (get_model_name_from_torrent p) = pathStem p :=
  ⟨rfl, fun _ hq => hq ▸ rfl, replaceChar_roundtrip (pathStem p) h⟩

/-- Witness for C8 on the descriptor name `/m/llama3_8b.torrent`. -/
theorem C8_resolver_deterministic_reversible_witness :
    get_model_name_from_torrent "/m/llama3_8b.torrent" =
      replaceChar '_' ':' (pathStem "/m/llama3_8b.torrent") ∧
    (∀ q, q = "/m/llama3_8b.torrent" →
      get_model_name_from_torrent q = get_model_name_from_torrent "/m/llama3_8b.torrent") ∧
    replaceChar ':' '_' (get_model_name_from_torrent "/m/llama3_8b.torrent") =
      pathStem "/m/llama3_8b.torrent" :=
  C8_resolver_deterministic_reversible "/m/llama3_8b.torrent" (by decide)

/-! ### What one monitor cycle does to a single descriptor -/

theorem cycle_tracked_not_running (env : Env) (d : Dir) (s : AutoSeederState)
    (t : String) (hmon : t ∈ s.monitored_torrents) (hrun : t ∉ s.running_seeders)
    (hfile : t ∈ find_torrent_files d) :
    t ∈ (monitor_cycle env d s).monitored_torrents ∧
    t ∉ (monitor_cycle env d s).running_seeders ∧
    (monitor_cycle env d s).launches.count t = s.launches.count t := by
  have hadds := adds_tracked env (find_torrent_files d) s t hmon
  have hmon2 := hadds.1
  have hrun2 := hadds.2.2.1 hrun
  have hnotds : t ∉ removedOf (find_torrent_files d)
      (cycleAdditions env (find_torrent_files d) s).monitored_torrents := by
    rw [mem_removedOf]
    rintro ⟨-, hnc⟩
    exact hnc hfile
  have hrm := rm_fold_notin env
    (removedOf (find_torrent_files d)
      (cycleAdditions env (find_torrent_files d) s).monitored_torrents)
    (cycleAdditions env (find_torrent_files d) s) t hnotds
  have hmon3 := hrm.1 hmon2
  have hrun3 := hrm.2 hrun2
  refine ⟨?_, ?_, ?_⟩
  · show t ∈ (check_seeder_status env (cycleRemovals env (find_torrent_files d)
        (cycleAdditions env (find_torrent_files d) s))).monitored_torrents
    rw [check_monitored]
    exact hmon3
  · intro hc
    exact hrun3 (check_run_sub env _ t hc)
  · show (check_seeder_status env (cycleRemovals env (find_torrent_files d)
        (cycleAdditions env (find_torrent_files d) s))).launches.count t = _
    rw [check_launches]
    show ((removedOf (find_torrent_files d)
        (cycleAdditions env (find_torrent_files d) s).monitored_torrents).foldl
          (removalStep env)
          (cycleAdditions env (find_torrent_files d) s)).launches.count t = _
    rw [rm_fold_launches, hadds.2.2.2]

theorem cycle_fresh_failed (env : Env) (d : Dir) (s : AutoSeederState)
    (t : String) (hfile : t ∈ find_torrent_files d)
    (hmon : t ∉ s.monitored_torrents) (hrun : t ∉ s.running_seeders)
    (hs : env.spawnOk t = false) :
    t ∉ (monitor_cycle env d s).running_seeders ∧
    t ∈ (monitor_cycle env d s).monitored_torrents ∧
    (monitor_cycle env d s).launches.count t = s.launches.count t + 1 := by
  have hadds := adds_new_failed env (find_torrent_files d) s t hfile hmon hrun hs
  have hnotds : t ∉ removedOf (find_torrent_files d)
      (cycleAdditions env (find_torrent_files d) s).monitored_torrents := by
    rw [mem_removedOf]
    rintro ⟨-, hnc⟩
    exact hnc hfile
  have hrm := rm_fold_notin env
    (removedOf (find_torrent_files d)
      (cycleAdditions env (find_torrent_files d) s).monitored_torrents)
    (cycleAdditions env (find_torrent_files d) s) t hnotds
  have hmon3 := hrm.1 hadds.2.1
  have hrun3 := hrm.2 hadds.2.2
  refine ⟨?_, ?_, ?_⟩
  · intro hc
    exact hrun3 (check_run_sub env _ t hc)
  · show t ∈ (check_seeder_status env (cycleRemovals env (find_torrent_files d)
        (cycleAdditions env (find_torrent_files d) s))).monitored_torrents
    rw [check_monitored]
    exact hmon3
  · show (check_seeder_status env (cycleRemovals env (find_torrent_files d)
        (cycleAdditions env (find_torrent_files d) s))).launches.count t = _
    rw [check_launches]
    show ((removedOf (find_torrent_files d)
        (cycleAdditions env (find_torrent_files d) s).monitored_torrents).foldl
          (removalStep env)
          (cycleAdditions env (find_torrent_files d) s)).launches.count t = _
    rw [rm_fold_launches, hadds.1]

/-- C1 counterexample: a tracked worker found Dead while its descriptor file
still exists.  The Dead result removes the entry from `running_seeders`, but
the next monitoring cycle performs zero launches and the worker stays absent
from `running_seeders` — no relaunch happens, because the additions loop
tests `monitored_torrents`, which still contains the path. -/
theorem C1_counterexample :
    "/m/a.torrent" ∉ (monitor_cycle
      ⟨fun _ => true, fun _ => true, fun _ => true, fun _ => PgrepResult.ok 1 ""⟩
      ⟨"/m", true, ["a.torrent"]⟩
      (check_seeder_status
        ⟨fun _ => true, fun _ => true, fun _ => true, fun _ => PgrepResult.ok 1 ""⟩
        ⟨["/m/a.torrent"], ["/m/a.torrent"], true, [], []⟩)).running_seeders ∧
    (monitor_cycle
      ⟨fun _ => true, fun _ => true, fun _ => true, fun _ => PgrepResult.ok 1 ""⟩
      ⟨"/m", true, ["a.torrent"]⟩
      (check_seeder_status
        ⟨fun _ => true, fun _ => true, fun _ => true, fun _ => PgrepResult.ok 1 ""⟩
        ⟨["/m/a.torrent"], ["/m/a.torrent"], true, [], []⟩)).launches = [] := by
  decide

/-- C1 (amended): when a tracked worker is reported Dead while its descriptor
file is still present, the status check removes the entry from
`running_seeders`, but the descriptor remains in `monitored_torrents`, so the
next monitoring cycle does not re-add it: it performs no launch for that
descriptor and leaves it absent from `running_seeders` — the worker is not
relaunched. -/
theorem C1_dead_worker_not_relaunched (env : Env) (d : Dir)
    (s : AutoSeederState) (t : String)
    (_hrun : t ∈ s.running_seeders) (hmon : t ∈ s.monitored_torrents)
    (hnd : s.running_seeders.Nodup) (hdead : seeder_dead env t = true)
    (hfile : t ∈ find_torrent_files d) :
    t ∉ (check_seeder_status env s).running_seeders ∧
    t ∈ (monitor_cycle env d (check_seeder_status env s)).monitored_torrents ∧
    t ∉ (monitor_cycle env d (check_seeder_status env s)).running_seeders ∧
    (monitor_cycle env d (check_seeder_status env s)).launches.count t =
      s.launches.count t := by
  have h1 : t ∉ (check_seeder_status env s).running_seeders := by
    rw [check_run_mem env s t hnd]
    rintro ⟨-, hf⟩
    rw [hdead] at hf
    cases hf
  have h2 : t ∈ (check_seeder_status env s).monitored_torrents := by
    rw [check_monitored]
    exact hmon
  have hcyc := cycle_tracked_not_running env d (check_seeder_status env s) t h2 h1 hfile
  exact ⟨h1, hcyc.1, hcyc.2.1, by rw [hcyc.2.2, check_launches]⟩

/-- Witness for the amended C1 at a concrete dead worker. -/
theorem C1_dead_worker_not_relaunched_witness :
    "/m/b.torrent" ∉ (check_seeder_status
      ⟨fun _ => true, fun _ => true, fun _ => true, fun _ => PgrepResult.exn⟩
      ⟨["/m/b.torrent"], ["/m/b.torrent"], true, [], []⟩).running_seeders ∧
    "/m/b.torrent" ∈ (monitor_cycle
      ⟨fun _ => true, fun _ => true, fun _ => true, fun _ => PgrepResult.exn⟩
      ⟨"/m", true, ["b.torrent"]⟩
      (check_seeder_status
        ⟨fun _ => true, fun _ => true, fun _ => true, fun _ => PgrepResult.exn⟩
        ⟨["/m/b.torrent"], ["/m/b.torrent"], true, [], []⟩)).monitored_torrents ∧
    "/m/b.torrent" ∉ (monitor_cycle
      ⟨fun _ => true, fun _ => true, fun _ => true, fun _ => PgrepResult.exn⟩
      ⟨"/m", true, ["b.torrent"]⟩
      (check_seeder_status
        ⟨fun _ => true, fun _ => true, fun _ => true, fun _ => PgrepResult.exn⟩
        ⟨["/m/b.torrent"], ["/m/b.torrent"], true, [], []⟩)).running_seeders ∧
    (monitor_cycle
      ⟨fun _ => true, fun _ => true, fun _ => true, fun _ => PgrepResult.exn⟩
      ⟨"/m", true, ["b.torrent"]⟩
      (check_seeder_status
        ⟨fun _ => true, fun _ => true, fun _ => true, fun _ => PgrepResult.exn⟩
        ⟨["/m/b.torrent"], ["/m/b.torrent"], true, [], []⟩)).launches.count
      "/m/b.torrent" = (([] : List String)).count "/m/b.torrent" :=
  C1_dead_worker_not_relaunched
    ⟨fun _ => true, fun _ => true, fun _ => true, fun _ => PgrepResult.exn⟩
    ⟨"/m", true, ["b.torrent"]⟩
    ⟨["/m/b.torrent"], ["/m/b.torrent"], true, [], []⟩ "/m/b.torrent"
    (by decide) (by decide) (by decide) (by decide) (by decide)

/-- C3 counterexample: a descriptor whose spawn fails.  After the first
monitoring cycle the path is tracked in `monitored_torrents` (not left
untracked), and the second cycle performs zero additional launch attempts —
the launch is not retried. -/
theorem C3_counterexample :
    "/m/a.torrent" ∈ (monitor_cycle
      ⟨fun _ => false, fun _ => true, fun _ => false, fun _ => PgrepResult.exn⟩
      ⟨"/m", true, ["a.torrent"]⟩ initState).monitored_torrents ∧
    "/m/a.torrent" ∉ (monitor_cycle
      ⟨fun _ => false, fun _ => true, fun _ => false, fun _ => PgrepResult.exn⟩
      ⟨"/m", true, ["a.torrent"]⟩ initState).running_seeders ∧
    (monitor_cycle
      ⟨fun _ => false, fun _ => true, fun _ => false, fun _ => PgrepResult.exn⟩
      ⟨"/m", true, ["a.torrent"]⟩
      (monitor_cycle
        ⟨fun _ => false, fun _ => true, fun _ => false, fun _ => PgrepResult.exn⟩
        ⟨"/m", true, ["a.torrent"]⟩ initState)).launches =
      (monitor_cycle
        ⟨fun _ => false, fun _ => true, fun _ => false, fun _ => PgrepResult.exn⟩
        ⟨"/m", true, ["a.torrent"]⟩ initState).launches := by
  decide

/-- C3 (amended): a failed launch leaves the descriptor out of
`running_seeders` and never stops the controller loop (the running flag is
untouched and the cycle completes), but the monitor adds the path to
`monitored_torrents` even on failure, so the next cycle does NOT attempt the
launch again: exactly one launch attempt is recorded, and a second cycle adds
none. -/
theorem C3_failed_launch_not_retried (env : Env) (d : Dir)
    (s : AutoSeederState) (t : String)
    (hfile : t ∈ find_torrent_files d) (hmon : t ∉ s.monitored_torrents)
    (hrun : t ∉ s.running_seeders) (hs : env.spawnOk t = false) :
    t ∉ (monitor_cycle env d s).running_seeders ∧
    t ∈ (monitor_cycle env d s).monitored_torrents ∧
    (monitor_cycle env d s).running = s.running ∧
    (monitor_cycle env d s).launches.count t = s.launches.count t + 1 ∧
    (monitor_cycle env d (monitor_cycle env d s)).launches.count t =
      (monitor_cycle env d s).launches.count t := by
  have h1 := cycle_fresh_failed env d s t hfile hmon hrun hs
  refine ⟨h1.1, h1.2.1, monitor_cycle_flag env d s, h1.2.2, ?_⟩
  exact (cycle_tracked_not_running env d (monitor_cycle env d s) t h1.2.1 h1.1
    hfile).2.2

/-- Witness for the amended C3 at a concrete failing descriptor. -/
theorem C3_failed_launch_not_retried_witness :
    "/m/c.torrent" ∉ (monitor_cycle
      ⟨fun _ => false, fun _ => true, fun _ => false, fun _ => PgrepResult.ok 0 "x"⟩
      ⟨"/m", true, ["c.torrent"]⟩ initState).running_seeders ∧
    "/m/c.torrent" ∈ (monitor_cycle
      ⟨fun _ => false, fun _ => true, fun _ => false, fun _ => PgrepResult.ok 0 "x"⟩
      ⟨"/m", true, ["c.torrent"]⟩ initState).monitored_torrents ∧
    (monitor_cycle
      ⟨fun _ => false, fun _ => true, fun _ => false, fun _ => PgrepResult.ok 0 "x"⟩
      ⟨"/m", true, ["c.torrent"]⟩ initState).running = initState.running ∧
    (monitor_cycle
      ⟨fun _ => false, fun _ => true, fun _ => false, fun _ => PgrepResult.ok 0 "x"⟩
      ⟨"/m", true, ["c.torrent"]⟩ initState).launches.count "/m/c.torrent" =
      initState.launches.count "/m/c.torrent" + 1 ∧
    (monitor_cycle
      ⟨fun _ => false, fun _ => true, fun _ => false, fun _ => PgrepResult.ok 0 "x"⟩
      ⟨"/m", true, ["c.torrent"]⟩
      (monitor_cycle
        ⟨fun _ => false, fun _ => true, fun _ => false, fun _ => PgrepResult.ok 0 "x"⟩
        ⟨"/m", true, ["c.torrent"]⟩ initState)).launches.count "/m/c.torrent" =
      (monitor_cycle
        ⟨fun _ => false, fun _ => true, fun _ => false, fun _ => PgrepResult.ok 0 "x"⟩
        ⟨"/m", true, ["c.torrent"]⟩ initState).launches.count "/m/c.torrent" :=
  C3_failed_launch_not_retried
    ⟨fun _ => false, fun _ => true, fun _ => false, fun _ => PgrepResult.ok 0 "x"⟩
    ⟨"/m", true, ["c.torrent"]⟩ initState "/m/c.torrent"
    (by decide) (by decide) (by decide) (by decide)

/-- C5 counterexample: a tracked descriptor whose file was removed, but whose
`terminate()` call raises.  After one monitoring cycle the entry is gone from
`monitored_torrents` yet still present in `running_seeders` — the cycle does
not remove the path from both, as the claim states. -/
theorem C5_counterexample :
    "/m/a.torrent" ∈ (monitor_cycle
      ⟨fun _ => true, fun _ => false, fun _ => false, fun _ => PgrepResult.ok 0 "x"⟩
      ⟨"/m", true, []⟩
      ⟨["/m/a.torrent"], ["/m/a.torrent"], true, [], []⟩).running_seeders ∧
    "/m/a.torrent" ∉ (monitor_cycle
      ⟨fun _ => true, fun _ => false, fun _ => false, fun _ => PgrepResult.ok 0 "x"⟩
      ⟨"/m", true, []⟩
      ⟨["/m/a.torrent"], ["/m/a.torrent"], true, [], []⟩).monitored_torrents := by
  decide

/-- C5 (amended): for a descriptor that is tracked with a worker but absent
from the current scan, one monitoring cycle requests termination of its
worker and removes the path from `monitored_torrents`; the path is removed
from `running_seeders` as well provided the `terminate()` call does not raise
(when it raises, the entry stays in `running_seeders`). -/
theorem C5_removed_descriptor_stopped (env : Env) (d : Dir)
    (s : AutoSeederState) (t : String)
    (hmon : t ∈ s.monitored_torrents) (hrun : t ∈ s.running_seeders)
    (hrnd : s.running_seeders.Nodup) (hmnd : s.monitored_torrents.Nodup)
    (habs : t ∉ find_torrent_files d) (hok : env.termOk t = true) :
    t ∈ (monitor_cycle env d s).termRequests ∧
    t ∉ (monitor_cycle env d s).running_seeders ∧
    t ∉ (monitor_cycle env d s).monitored_torrents := by
  have hadds := adds_tracked env (find_torrent_files d) s t hmon
  have hrun2 := hadds.2.1 hrun
  have hrnd2 := adds_run_nodup env (find_torrent_files d) s hrnd
  have hmnd2 := adds_mon_nodup env (find_torrent_files d) s hmnd
  have htds : t ∈ removedOf (find_torrent_files d)
      (cycleAdditions env (find_torrent_files d) s).monitored_torrents :=
    (mem_removedOf _ _ _).mpr ⟨hadds.1, habs⟩
  have hdsnd := removedOf_nodup (find_torrent_files d)
    (cycleAdditions env (find_torrent_files d) s).monitored_torrents hmnd2
  have hrm := rm_fold_hit env
    (removedOf (find_torrent_files d)
      (cycleAdditions env (find_torrent_files d) s).monitored_torrents)
    (cycleAdditions env (find_torrent_files d) s) t hdsnd htds hrun2 hrnd2
    hmnd2 hok
  refine ⟨?_, ?_, ?_⟩
  · show t ∈ (check_seeder_status env (cycleRemovals env (find_torrent_files d)
        (cycleAdditions env (find_torrent_files d) s))).termRequests
    rw [check_termRequests]
    exact hrm.1
  · intro hc
    exact hrm.2.1 (check_run_sub env _ t hc)
  · show t ∉ (check_seeder_status env (cycleRemovals env (find_torrent_files d)
        (cycleAdditions env (find_torrent_files d) s))).monitored_torrents
    rw [check_monitored]
    exact hrm.2.2

/-- Witness for the amended C5: removed descriptor, terminate succeeds. -/
theorem C5_removed_descriptor_stopped_witness :
    "/m/a.torrent" ∈ (monitor_cycle
      ⟨fun _ => true, fun _ => true, fun _ => false, fun _ => PgrepResult.ok 0 "x"⟩
      ⟨"/m", true, []⟩
      ⟨["/m/a.torrent"], ["/m/a.torrent"], true, [], []⟩).termRequests ∧
    "/m/a.torrent" ∉ (monitor_cycle
      ⟨fun _ => true, fun _ => true, fun _ => false, fun _ => PgrepResult.ok 0 "x"⟩
      ⟨"/m", true, []⟩
      ⟨["/m/a.torrent"], ["/m/a.torrent"], true, [], []⟩).running_seeders ∧
    "/m/a.torrent" ∉ (monitor_cycle
      ⟨fun _ => true, fun _ => true, fun _ => false, fun _ => PgrepResult.ok 0 "x"⟩
      ⟨"/m", true, []⟩
      ⟨["/m/a.torrent"], ["/m/a.torrent"], true, [], []⟩).monitored_torrents :=
  C5_removed_descriptor_stopped
    ⟨fun _ => true, fun _ => true, fun _ => false, fun _ => PgrepResult.ok 0 "x"⟩
    ⟨"/m", true, []⟩
    ⟨["/m/a.torrent"], ["/m/a.torrent"], true, [], []⟩ "/m/a.torrent"
    (by decide) (by decide) (by decide) (by decide) (by decide) (by decide)
